import Mathlib

set_option linter.unusedVariables false

/-!
Verification development for the news-categorization pipeline
(`src/lib/news-scraping-service.ts`, `src/lib/langchain-agents.ts`).

The TypeScript code is shallowly embedded: the Prisma article store is a
`List ArticleRec`, external capabilities (search, extract, LLM) are oracles
passed as explicit arguments, and the per-candidate control flow of the two
scraping loops is reproduced as pure functions over outcome alphabets.
JavaScript string operations (`toUpperCase`, `trim`, `substring`) are
modelled on the underlying character lists.
-/

namespace NewsCat

/-- JavaScript `s.toUpperCase()` on ASCII data. -/
def strUpper (s : String) : String :=
  String.mk (s.data.map Char.toUpper)

/-- Characters the embedding treats as whitespace (JS `\s` on the inputs
this code sees). -/
def wsChar (c : Char) : Bool :=
  c == ' ' || c == '\t' || c == '\n' || c == '\r'

/-- JavaScript `s.trim()`. -/
def strTrim (s : String) : String :=
  String.mk (((s.data.dropWhile wsChar).reverse.dropWhile wsChar).reverse)

/-- JavaScript `s.substring(0, n)`. -/
def strTake (s : String) (n : Nat) : String :=
  String.mk (s.data.take n)

/-- A persisted article row, mirroring the Prisma `Article` fields the
pipeline reads and writes. `scrapedAt` is a logical scrape-order tick. -/
structure ArticleRec where
  id : String
  sourceUrl : String
  country : String
  category : String
  year : Nat
  sequenceNum : Nat
  threadId : Option String
  parentId : Option String
  dnaCode : String
  scrapedAt : Nat
deriving Repr, DecidableEq

/-- The running counters of `ScrapingStats` that the conservation law is
about (`totalArticlesFound`, `articlesProcessed`, `articlesSkipped`,
`errors`). -/
structure Stats where
  found : Nat
  processed : Nat
  skipped : Nat
  errors : Nat
deriving Repr, DecidableEq

/-- The allowed Prisma `Country` enum values checked by `normalizeCountry`. -/
def allowedCountries : List String :=
  ["USA", "RUSSIA", "INDIA", "CHINA", "JAPAN", "UK", "GERMANY", "FRANCE", "BRAZIL", "AUSTRALIA"]

/-- Embeds `NewsScrapingService.normalizeCountry` (news-scraping-service.ts
lines 424-431): uppercase the input (empty for null/undefined), keep it only
if it is in the allowed set, otherwise default to INDIA. -/
def normalizeCountry (country : Option String) : String :=
  let normalized := strUpper (country.getD "")
  if allowedCountries.contains normalized then normalized else "INDIA"

/-- The closed category set used by `classifyCategory` and the
forced-category validation in `processArticle`. -/
def validCategories : List String :=
  ["POL", "ECO", "SOC", "TEC", "ENV", "HEA", "SPO", "SEC"]

/-- Result of one LLM invocation: either a response string or a thrown
exception. -/
inductive LlmResult where
  | ok (content : String)
  | threw
deriving Repr, DecidableEq

/-- Embeds `NewsProcessor.classifyCategory` (langchain-agents.ts lines
45-72): the model sees the title and a 2000-character prefix of the content;
a thrown call or an out-of-set answer falls back to ECO. -/
def classifyCategory (llm : String → String → LlmResult) (title content : String) : String :=
  match llm title (strTake content 2000) with
  | .threw => "ECO"
  | .ok resp =>
    let category := strUpper (strTrim resp)
    if validCategories.contains category then category else "ECO"

/-- Run status of the in-memory `ScrapingStats`. -/
inductive RunStatus where
  | idle
  | running
  | completed
  | error
deriving Repr, DecidableEq

/-- The orchestrator's in-memory session: the `isRunning` flag plus the
counters and status of `this.stats`. -/
structure Session where
  isRunning : Bool
  stats : Stats
  status : RunStatus
deriving Repr, DecidableEq

/-- `resetStats` (news-scraping-service.ts lines 80-91): zero counters,
status `running`. -/
def resetStatsOf : Stats × RunStatus :=
  (⟨0, 0, 0, 0⟩, .running)

/-- Result of invoking a start operation. -/
inductive StartResult where
  | accepted
  | alreadyRunning
deriving Repr, DecidableEq

/-- Embeds the guard of `startWorldwideNewsScraping` (lines 61-67): when a
run is in progress the call throws before mutating anything; otherwise the
flag is set and the stats reset. -/
def tryStartWorldwide (s : Session) : Session × StartResult :=
  if s.isRunning then (s, .alreadyRunning)
  else (⟨true, (resetStatsOf).1, (resetStatsOf).2⟩, .accepted)

/-- Grid-run parameters (`startCountryTopicScraping`). -/
structure GridParams where
  countries : List String
  topics : List String
  date : String
deriving Repr, DecidableEq

/-- Embeds the guard of `startCountryTopicScraping` (lines 178-183): the same
mutual-exclusion check as the worldwide entry point. -/
def tryStartGrid (s : Session) (p : GridParams) : Session × StartResult :=
  if s.isRunning then (s, .alreadyRunning)
  else (⟨true, (resetStatsOf).1, (resetStatsOf).2⟩, .accepted)

/-- Claim C10: country normalization is total with a fixed default — the
result is always in the allowed set; an input whose uppercasing is outside
the set (including the URL-detector's UNKNOWN result and a null input) maps
to INDIA; an allowed input is returned uppercased. -/
theorem normalizeCountry_total (c : Option String) :
    allowedCountries.contains (normalizeCountry c) = true
    ∧ (allowedCountries.contains (strUpper (c.getD "")) = false → normalizeCountry c = "INDIA")
    ∧ (allowedCountries.contains (strUpper (c.getD "")) = true →
        normalizeCountry c = strUpper (c.getD ""))
    ∧ normalizeCountry (some "UNKNOWN") = "INDIA"
    ∧ normalizeCountry none = "INDIA" := by
  refine ⟨?_, ?_, ?_, by decide, by decide⟩
  · simp only [normalizeCountry]
    split
    · assumption
    · decide
  · intro h
    simp only [normalizeCountry]
    split
    · rename_i h2
      rw [h] at h2
      exact absurd h2 (by decide)
    · rfl
  · intro h
    simp only [normalizeCountry]
    split
    · rfl
    · rename_i h2
      exact absurd h h2

/-- Claim C10 witness: concrete evaluation at input "uk". -/
theorem normalizeCountry_total_witness :
    allowedCountries.contains (normalizeCountry (some "uk")) = true
    ∧ normalizeCountry (some "uk") = strUpper ((some "uk" : Option String).getD "") := by
  exact ⟨(normalizeCountry_total (some "uk")).1,
    (normalizeCountry_total (some "uk")).2.2.1 (by decide)⟩

/-- `strTake` truncates idempotently: taking a 2000-character prefix of an
already-truncated string changes nothing. -/
theorem strTake_idem (s : String) (n : Nat) : strTake (strTake s n) n = strTake s n := by
  simp [strTake, List.take_take]

/-- Claim C7: classification totality and fallback — the classifier always
returns a member of the fixed closed category set; a thrown model call
falls back to ECO; an answer outside the set falls back to ECO; and the
model input is always the bounded 2000-character prefix of the text (so
classifying the full text and classifying its prefix agree). -/
theorem classifyCategory_total (llm : String → String → LlmResult) (title content : String) :
    validCategories.contains (classifyCategory llm title content) = true
    ∧ (llm title (strTake content 2000) = .threw → classifyCategory llm title content = "ECO")
    ∧ (∀ resp, llm title (strTake content 2000) = .ok resp →
        validCategories.contains (strUpper (strTrim resp)) = false →
        classifyCategory llm title content = "ECO")
    ∧ classifyCategory llm title content = classifyCategory llm title (strTake content 2000) := by
  refine ⟨?_, ?_, ?_, ?_⟩
  · cases h : llm title (strTake content 2000) with
    | threw => simp only [classifyCategory, h]; decide
    | ok resp =>
      simp only [classifyCategory, h]
      split
      · assumption
      · decide
  · intro h
    simp only [classifyCategory, h]
  · intro resp h hbad
    simp only [classifyCategory, h]
    split
    · rename_i h2
      rw [hbad] at h2
      exact absurd h2 (by decide)
    · rfl
  · simp only [classifyCategory, strTake_idem]

/-- Claim C7 witness: a throwing model yields ECO, and a model answering
outside the closed set yields ECO; concrete evaluations. -/
theorem classifyCategory_total_witness :
    classifyCategory (fun t c => LlmResult.threw) "t" "body" = "ECO"
    ∧ classifyCategory (fun t c => LlmResult.ok "WEIRD") "t" "body" = "ECO" := by
  constructor
  · exact (classifyCategory_total (fun t c => LlmResult.threw) "t" "body").2.1 rfl
  · exact (classifyCategory_total (fun t c => LlmResult.ok "WEIRD") "t" "body").2.2.1
      "WEIRD" rfl (by decide)

/-- Claim C8: run mutual exclusion — invoking either start operation while a
run is in progress is rejected (`alreadyRunning`) and returns the session
state unchanged, for both the whole-world and the country-by-topic entry
points. -/
theorem start_mutual_exclusion (s : Session) (p : GridParams) (h : s.isRunning = true) :
    tryStartWorldwide s = (s, .alreadyRunning)
    ∧ tryStartGrid s p = (s, .alreadyRunning) := by
  constructor
  · simp [tryStartWorldwide, h]
  · simp [tryStartGrid, h]

/-- Claim C8 witness: concrete running session, concrete grid parameters. -/
theorem start_mutual_exclusion_witness :
    tryStartWorldwide ⟨true, ⟨3, 1, 1, 1⟩, .running⟩ = (⟨true, ⟨3, 1, 1, 1⟩, .running⟩, .alreadyRunning)
    ∧ tryStartGrid ⟨true, ⟨3, 1, 1, 1⟩, .running⟩ ⟨["INDIA"], ["policy"], "03-09-2025"⟩ =
        (⟨true, ⟨3, 1, 1, 1⟩, .running⟩, .alreadyRunning) :=
  start_mutual_exclusion ⟨true, ⟨3, 1, 1, 1⟩, .running⟩ ⟨["INDIA"], ["policy"], "03-09-2025"⟩ rfl

/-- Terminal outcome of handling one discovered candidate in either
scraping loop. -/
inductive CandOutcome where
  | dup
  | tooShort
  | saved
  | errored
deriving Repr, DecidableEq

/-- How the loop bodies update the session counters for one candidate:
an existing source URL or unusable content increments `articlesSkipped`, a
successful save increments `articlesProcessed`, a caught exception
increments `errors`. -/
def tallyOutcome (s : Stats) : CandOutcome → Stats
  | .dup => { s with skipped := s.skipped + 1 }
  | .tooShort => { s with skipped := s.skipped + 1 }
  | .saved => { s with processed := s.processed + 1 }
  | .errored => { s with errors := s.errors + 1 }

/-- The three outcome counters summed (`processed + skipped + errors`). -/
def sumStats (s : Stats) : Nat :=
  s.processed + s.skipped + s.errors

/-- Embeds the per-article loop of `performWorldwideScraping` (lines
108-170): `totalArticlesFound` is set to the number of search results and
every result is handled, each contributing to exactly one counter. -/
def worldwideRun (cands : List CandOutcome) : Stats :=
  cands.foldl tallyOutcome ⟨cands.length, 0, 0, 0⟩

/-- Outcome of one (country, topic) combination in the grid run: the search
query itself threw, or it returned a list of candidates. -/
inductive ComboResult where
  | queryErr
  | results (cands : List CandOutcome)
deriving Repr, DecidableEq

/-- Embeds the inner loop of `startCountryTopicScraping` (lines 241-282):
candidates are handled in order, a successful save increments the
per-combination counter, and the loop stops looking at candidates once 2
articles have been accepted for the combination. -/
def comboLoop : List CandOutcome → Nat → Stats → Stats
  | [], _, s => s
  | c :: rest, processedForCombo, s =>
    if 2 ≤ processedForCombo then s
    else
      match c with
      | .saved => comboLoop rest (processedForCombo + 1) (tallyOutcome s .saved)
      | o => comboLoop rest processedForCombo (tallyOutcome s o)

/-- One combination of the grid run (lines 226-287): a thrown query is
caught and counted as one error; a successful query adds its result count
to `totalArticlesFound` and runs the capped candidate loop. -/
def gridStep (s : Stats) : ComboResult → Stats
  | .queryErr => { s with errors := s.errors + 1 }
  | .results cands => comboLoop cands 0 { s with found := s.found + cands.length }

/-- Embeds a full `startCountryTopicScraping` run over its combination
list, starting from the reset statistics. -/
def gridRun (combos : List ComboResult) : Stats :=
  combos.foldl gridStep ⟨0, 0, 0, 0⟩

/-- Tallying one candidate adds exactly one to the outcome-counter sum. -/
theorem sumStats_tally (s : Stats) (c : CandOutcome) :
    sumStats (tallyOutcome s c) = sumStats s + 1 := by
  cases c <;> simp [tallyOutcome, sumStats] <;> omega

/-- Tallying a candidate never changes `totalArticlesFound`. -/
theorem found_tally (s : Stats) (c : CandOutcome) :
    (tallyOutcome s c).found = s.found := by
  cases c <;> rfl

/-- Folding the tally over a candidate list adds its length to the
outcome-counter sum. -/
theorem sumStats_foldl_tally (cands : List CandOutcome) (s : Stats) :
    sumStats (cands.foldl tallyOutcome s) = sumStats s + cands.length := by
  induction cands generalizing s with
  | nil => simp
  | cons c rest ih =>
    simp only [List.foldl_cons, ih, sumStats_tally, List.length_cons]
    omega

/-- Folding the tally over a candidate list never changes
`totalArticlesFound`. -/
theorem found_foldl_tally (cands : List CandOutcome) (s : Stats) :
    (cands.foldl tallyOutcome s).found = s.found := by
  induction cands generalizing s with
  | nil => rfl
  | cons c rest ih => simp only [List.foldl_cons, ih, found_tally]

/-- The capped combination loop never changes `totalArticlesFound`. -/
theorem comboLoop_found (cands : List CandOutcome) (pc : Nat) (s : Stats) :
    (comboLoop cands pc s).found = s.found := by
  induction cands generalizing pc s with
  | nil => rfl
  | cons c rest ih =>
    by_cases h : 2 ≤ pc
    · simp [comboLoop, h]
    · cases c <;> simp [comboLoop, h, ih, found_tally]

/-- The capped combination loop tallies at most one outcome per candidate,
so it adds at most the candidate count to the outcome-counter sum. -/
theorem comboLoop_sum_le (cands : List CandOutcome) (pc : Nat) (s : Stats) :
    sumStats (comboLoop cands pc s) ≤ sumStats s + cands.length := by
  induction cands generalizing pc s with
  | nil => simp [comboLoop]
  | cons c rest ih =>
    by_cases h : 2 ≤ pc
    · simp [comboLoop, h]
    · cases c <;> simp only [comboLoop, h, if_false, ite_false, List.length_cons] <;>
        calc sumStats (comboLoop rest _ (tallyOutcome s _))
            ≤ sumStats (tallyOutcome s _) + rest.length := ih _ _
          _ ≤ sumStats s + (rest.length + 1) := by rw [sumStats_tally]; omega

/-- Claim C2 counterexample: a completed grid run whose single (country,
topic) query returns three viable new candidates saves only the capped 2,
leaving `totalArticlesFound = 3` but `processed + skipped + errors = 2` —
the conservation law fails for grid mode. -/
theorem conservation_counterexample :
    (gridRun [ComboResult.results [CandOutcome.saved, CandOutcome.saved, CandOutcome.saved]]).found = 3
    ∧ sumStats (gridRun [ComboResult.results [CandOutcome.saved, CandOutcome.saved, CandOutcome.saved]]) = 2
    ∧ (gridRun [ComboResult.results [CandOutcome.saved, CandOutcome.saved, CandOutcome.saved]]).found ≠
        sumStats (gridRun [ComboResult.results [CandOutcome.saved, CandOutcome.saved, CandOutcome.saved]]) := by
  refine ⟨rfl, rfl, by decide⟩

/-- Claim C2 (amended): the conservation law `found = processed + skipped +
errors` holds at completion of every whole-world discovery run; for grid
runs it only holds as the inequality `processed + skipped + errors ≤ found`
when every query succeeds, because candidates beyond the per-combination
cap of 2 accepted articles are left uncounted (and a failed query adds an
error without adding to `found`). -/
theorem conservation_amended :
    (∀ cands : List CandOutcome,
      (worldwideRun cands).found = sumStats (worldwideRun cands))
    ∧ (∀ s : Stats, gridStep s ComboResult.queryErr = { s with errors := s.errors + 1 })
    ∧ (∀ combos : List ComboResult, (∀ r ∈ combos, r ≠ ComboResult.queryErr) →
        sumStats (gridRun combos) ≤ (gridRun combos).found) := by
  refine ⟨?_, fun s => rfl, ?_⟩
  · intro cands
    unfold worldwideRun
    rw [found_foldl_tally, sumStats_foldl_tally]
    simp [sumStats]
  · intro combos hq
    have key : ∀ (cs : List ComboResult) (s : Stats), (∀ r ∈ cs, r ≠ ComboResult.queryErr) →
        sumStats s ≤ s.found → sumStats (cs.foldl gridStep s) ≤ (cs.foldl gridStep s).found := by
      intro cs
      induction cs with
      | nil => intro s _ hs; simpa
      | cons r rest ih =>
        intro s hq2 hs
        cases r with
        | queryErr => exact absurd rfl (hq2 _ (List.mem_cons_self _ _))
        | results cands =>
          simp only [List.foldl_cons]
          apply ih _ (fun x hx => hq2 x (List.mem_cons_of_mem _ hx))
          show sumStats (gridStep s (ComboResult.results cands)) ≤ _
          simp only [gridStep]
          rw [comboLoop_found]
          calc sumStats (comboLoop cands 0 { s with found := s.found + cands.length })
              ≤ sumStats { s with found := s.found + cands.length } + cands.length :=
                comboLoop_sum_le _ _ _
            _ ≤ ({ s with found := s.found + cands.length } : Stats).found := by
                simp only [sumStats] at hs ⊢
                omega
    exact key combos ⟨0, 0, 0, 0⟩ hq (by simp [sumStats])

/-- Claim C2 (amended) witness: concrete whole-world run and concrete
error-free grid run. -/
theorem conservation_amended_witness :
    (worldwideRun [CandOutcome.saved, CandOutcome.dup, CandOutcome.errored]).found =
      sumStats (worldwideRun [CandOutcome.saved, CandOutcome.dup, CandOutcome.errored])
    ∧ sumStats (gridRun [ComboResult.results [CandOutcome.dup, CandOutcome.saved]]) ≤
        (gridRun [ComboResult.results [CandOutcome.dup, CandOutcome.saved]]).found := by
  exact ⟨conservation_amended.1 _,
    conservation_amended.2.2 [ComboResult.results [CandOutcome.dup, CandOutcome.saved]]
      (by decide)⟩

/-- Outcome of one call to the extraction provider (`tvly.extract`). -/
inductive ExtractResult where
  | ok (content : String)
  | noString
  | threw
deriving Repr, DecidableEq

/-- Embeds `NewsScrapingService.extractContent` (lines 433-454): a thrown
provider call is caught and returns null; a response without a string
`rawContent`, or an empty one, returns null; otherwise the content. -/
def extractContent : ExtractResult → Option String
  | .ok content => if content.length < 1 then none else some content
  | .noString => none
  | .threw => none

/-- How the worldwide loop body (lines 126-170) classifies one candidate:
an existing source URL is skipped; null or sub-100-character content is
skipped; otherwise downstream processing either saves the article or throws
an exception that the loop catches and counts as an error. -/
def classifyCandidate (existsAlready : Bool) (er : ExtractResult) (downstreamOk : Bool) :
    CandOutcome :=
  if existsAlready then .dup
  else
    match extractContent er with
    | none => .tooShort
    | some content =>
      if content.length < 100 then .tooShort
      else if downstreamOk then .saved else .errored

/-- Claim C4 counterexample: a transport/provider exception raised during
extraction is swallowed by `extractContent` (it returns null), so the
candidate is counted as skipped — it increments `articlesSkipped`, not the
`errors` counter, contradicting part (3) of the claim. -/
theorem extract_exception_counterexample :
    classifyCandidate false ExtractResult.threw true = CandOutcome.tooShort
    ∧ tallyOutcome ⟨1, 0, 0, 0⟩ (classifyCandidate false ExtractResult.threw true) = ⟨1, 0, 1, 0⟩
    ∧ classifyCandidate false ExtractResult.threw true ≠ CandOutcome.errored := by
  refine ⟨rfl, rfl, by decide⟩

/-- Claim C4 (amended): an already-present source URL is counted as skipped;
absent or sub-minimum-length content is counted as skipped; a
transport/provider exception during extraction is caught inside
`extractContent`, surfaces as null content, and is therefore also counted
as skipped; exceptions thrown by the downstream stages (processing, saving)
are counted as errored; and an errored candidate never aborts the batch —
the loop tallies it and continues with the remaining candidates. -/
theorem content_resolution_amended (er : ExtractResult) (dok : Bool) (content : String) :
    classifyCandidate true er dok = CandOutcome.dup
    ∧ (∀ s : Stats, tallyOutcome s CandOutcome.dup = { s with skipped := s.skipped + 1 })
    ∧ classifyCandidate false ExtractResult.threw dok = CandOutcome.tooShort
    ∧ (content.length < 100 →
        classifyCandidate false (ExtractResult.ok content) dok = CandOutcome.tooShort)
    ∧ (100 ≤ content.length →
        classifyCandidate false (ExtractResult.ok content) false = CandOutcome.errored)
    ∧ (∀ (s : Stats) (rest : List CandOutcome),
        List.foldl tallyOutcome s (CandOutcome.errored :: rest) =
          List.foldl tallyOutcome { s with errors := s.errors + 1 } rest) := by
  refine ⟨rfl, fun s => rfl, rfl, ?_, ?_, fun s rest => rfl⟩
  · intro h
    by_cases h1 : content.length < 1
    · simp [classifyCandidate, extractContent, h1]
    · simp [classifyCandidate, extractContent, h1, h]
  · intro h
    have h1 : ¬ content.length < 1 := by omega
    have h2 : ¬ content.length < 100 := by omega
    simp [classifyCandidate, extractContent, h1, h2]

/-- Claim C4 (amended) witness: concrete evaluations with a short and a
100-character content string. -/
theorem content_resolution_amended_witness :
    classifyCandidate false (ExtractResult.ok "tiny") true = CandOutcome.tooShort
    ∧ classifyCandidate false (ExtractResult.ok (String.mk (List.replicate 100 'a'))) false =
        CandOutcome.errored := by
  refine ⟨(content_resolution_amended ExtractResult.threw true "tiny").2.2.2.1 (by decide),
    (content_resolution_amended ExtractResult.threw true
      (String.mk (List.replicate 100 'a'))).2.2.2.2.1 (by decide)⟩

/-- The accumulator step of `findFirst({orderBy: {sequenceNum: desc}})`:
keep whichever row has the larger sequence number. -/
def seqPick (best : Option ArticleRec) (a : ArticleRec) : Option ArticleRec :=
  match best with
  | none => some a
  | some b => if b.sequenceNum < a.sequenceNum then some a else some b

/-- The rows matching the exact (country, category, year) triple of the
`where` clause in `getNextSequenceNumber`. -/
def matchingArticles (db : List ArticleRec) (country category : String) (year : Nat) :
    List ArticleRec :=
  db.filter (fun a => a.country == country && a.category == category && a.year == year)

/-- Embeds `NewsProcessor.getNextSequenceNumber` (langchain-agents.ts lines
255-276): the highest existing sequence number for the triple plus one, or
1 when no row matches. -/
def getNextSequenceNumber (db : List ArticleRec) (country category : String) (year : Nat) :
    Nat :=
  match (matchingArticles db country category year).foldl seqPick none with
  | some lastArticle => lastArticle.sequenceNum + 1
  | none => 1

/-- JavaScript `s.padStart(3, "0")`. -/
def padStart3 (s : String) : String :=
  if 3 ≤ s.length then s else String.mk (List.replicate (3 - s.length) '0' ++ s.data)

/-- The DNA-code template of `processArticle` (line 173):
country-category-year-paddedSequence. -/
def mkDnaCode (country category : String) (year seq : Nat) : String :=
  country ++ "-" ++ category ++ "-" ++ toString year ++ "-" ++ padStart3 (toString seq)

/-- JavaScript `s.split("-")` on character data. -/
def splitDash : List Char → List Char → List String
  | [], acc => [String.mk acc.reverse]
  | c :: rest, acc =>
    if c == '-' then String.mk acc.reverse :: splitDash rest []
    else splitDash rest (c :: acc)

/-- JavaScript `parseInt` on the leading digit run; `none` models NaN. -/
def parseIntDigits (l : List Char) : Option Nat :=
  let digits := l.takeWhile (fun c => c.isDigit)
  if digits = [] then none
  else some (digits.foldl (fun n c => n * 10 + (c.toNat - 48)) 0)

/-- The writer's `parseInt(article.dnaCode.split("-")[3]) || 1`
(news-scraping-service.ts line 337). -/
def seqFromDna (dna : String) : Nat :=
  match parseIntDigits ((splitDash dna.data []).getD 3 "").data with
  | some n => if n = 0 then 1 else n
  | none => 1

/-- Folding `seqPick` from a seeded row yields a row drawn from the seed or
the list whose sequence number dominates both. -/
theorem seqPick_foldl_some (l : List ArticleRec) (a : ArticleRec) :
    ∃ b, l.foldl seqPick (some a) = some b
      ∧ (b = a ∨ b ∈ l)
      ∧ a.sequenceNum ≤ b.sequenceNum
      ∧ ∀ x ∈ l, x.sequenceNum ≤ b.sequenceNum := by
  induction l generalizing a with
  | nil => exact ⟨a, rfl, Or.inl rfl, Nat.le_refl _, by simp⟩
  | cons c rest ih =>
    by_cases h : a.sequenceNum < c.sequenceNum
    · obtain ⟨b, hb, hmem, hle, hall⟩ := ih c
      refine ⟨b, ?_, ?_, ?_, ?_⟩
      · simpa [seqPick, h] using hb
      · rcases hmem with h1 | h1
        · exact Or.inr (h1 ▸ List.mem_cons_self _ _)
        · exact Or.inr (List.mem_cons_of_mem _ h1)
      · omega
      · intro x hx
        rcases List.mem_cons.mp hx with h1 | h1
        · subst h1; omega
        · exact hall x h1
    · obtain ⟨b, hb, hmem, hle, hall⟩ := ih a
      refine ⟨b, ?_, ?_, hle, ?_⟩
      · simpa [seqPick, h] using hb
      · rcases hmem with h1 | h1
        · exact Or.inl h1
        · exact Or.inr (List.mem_cons_of_mem _ h1)
      · intro x hx
        rcases List.mem_cons.mp hx with h1 | h1
        · subst h1; omega
        · exact hall x h1

/-- The USA/ECO/2025 scenario: an empty store, a first allocation, the row
the writer persists for it (its stored `sequenceNum` parsed back from the
DNA code), then a second allocation. -/
def scenarioFirstDna : String :=
  mkDnaCode "USA" "ECO" 2025 (getNextSequenceNumber [] "USA" "ECO" 2025)

/-- The store after the first scenario article is saved. -/
def scenarioDb1 : List ArticleRec :=
  [⟨"a1", "https://news.example/1", "USA", "ECO", 2025, seqFromDna scenarioFirstDna,
    none, none, scenarioFirstDna, 0⟩]

/-- The DNA code allocated to a second USA/ECO/2025 article in the same
run. -/
def scenarioSecondDna : String :=
  mkDnaCode "USA" "ECO" 2025 (getNextSequenceNumber scenarioDb1 "USA" "ECO" 2025)

/-- Claim C3: identifier allocation — with no row for the triple the next
sequence number is 1; otherwise it is the maximum existing sequence number
for the exact triple plus one; and in the concrete scenario the first
USA/ECO/2025 identifier is USA-ECO-2025-001 and the second, after the first
is persisted, is USA-ECO-2025-002. -/
theorem getNextSequenceNumber_spec :
    (∀ (db : List ArticleRec) (c k : String) (y : Nat),
      matchingArticles db c k y = [] → getNextSequenceNumber db c k y = 1)
    ∧ (∀ (db : List ArticleRec) (c k : String) (y : Nat),
        matchingArticles db c k y ≠ [] →
        ∃ m ∈ matchingArticles db c k y,
          getNextSequenceNumber db c k y = m.sequenceNum + 1
          ∧ ∀ x ∈ matchingArticles db c k y, x.sequenceNum ≤ m.sequenceNum)
    ∧ scenarioFirstDna = "USA-ECO-2025-001"
    ∧ scenarioSecondDna = "USA-ECO-2025-002" := by
  refine ⟨?_, ?_, by decide, by decide⟩
  · intro db c k y h
    simp [getNextSequenceNumber, h]
  · intro db c k y h
    unfold getNextSequenceNumber
    cases hm : matchingArticles db c k y with
    | nil => exact absurd hm h
    | cons first rest =>
      have step : (first :: rest).foldl seqPick none = rest.foldl seqPick (some first) := rfl
      obtain ⟨b, hb, hmem, hle, hall⟩ := seqPick_foldl_some rest first
      rw [step, hb]
      refine ⟨b, ?_, rfl, ?_⟩
      · rcases hmem with h1 | h1
        · exact h1 ▸ List.mem_cons_self _ _
        · exact List.mem_cons_of_mem _ h1
      · intro x hx
        rcases List.mem_cons.mp hx with h1 | h1
        · subst h1; exact hle
        · exact hall x h1

/-- Claim C3 witness: the empty store allocates 1, and on the one-row
scenario store the allocation is a matching row's maximal sequence number
plus one. -/
theorem getNextSequenceNumber_spec_witness :
    getNextSequenceNumber [] "USA" "ECO" 2025 = 1
    ∧ ∃ m ∈ matchingArticles scenarioDb1 "USA" "ECO" 2025,
        getNextSequenceNumber scenarioDb1 "USA" "ECO" 2025 = m.sequenceNum + 1
        ∧ ∀ x ∈ matchingArticles scenarioDb1 "USA" "ECO" 2025,
            x.sequenceNum ≤ m.sequenceNum := by
  exact ⟨getNextSequenceNumber_spec.1 [] "USA" "ECO" 2025 (by decide),
    getNextSequenceNumber_spec.2.1 scenarioDb1 "USA" "ECO" 2025 (by decide)⟩

/-- The accumulator step of `findFirst({orderBy: {scrapedAt: desc}})`:
keep whichever row was scraped later. -/
def scrapePick (best : Option ArticleRec) (a : ArticleRec) : Option ArticleRec :=
  match best with
  | none => some a
  | some b => if b.scrapedAt < a.scrapedAt then some a else some b

/-- `prisma.article.findFirst({where: {threadId}, orderBy: {scrapedAt:
desc}})` (langchain-agents.ts lines 183-187): the most recently scraped
article already in the thread. -/
def lastInThread (db : List ArticleRec) (key : String) : Option ArticleRec :=
  (db.filter (fun a => a.threadId == some key)).foldl scrapePick none

/-- The thread linkage `processArticle` computes for an article before
handing it to the writer. -/
structure ThreadLink where
  parentId : Option String
  threadId : Option String
deriving Repr, DecidableEq

/-- Characters removed by the `replace(/[`"'\s]/g, "")` cleanup of the
threading decision (backtick, double quote, single quote, whitespace). -/
def strippedChar (c : Char) : Bool :=
  c == Char.ofNat 96 || c == Char.ofNat 34 || c == Char.ofNat 39 || wsChar c

/-- The decision cleanup of line 206: strip quote/whitespace characters,
then trim. -/
def cleanDecision (s : String) : String :=
  strTrim (String.mk (s.data.filter (fun c => !(strippedChar c))))

/-- Lines 225-231: once a parent id is resolved, look the parent row up and
inherit its thread when no thread id was found yet
(`threadId = threadId || parentArticle?.threadId || undefined`). -/
def finishWithParent (db : List ArticleRec) (pid : String) (tid : Option String) :
    ThreadLink :=
  match tid with
  | some t => ⟨some pid, some t⟩
  | none => ⟨some pid, (db.find? (fun a => a.id == pid)).bind (fun a => a.threadId)⟩

/-- Embeds the heuristic branch of `processArticle` threading (lines
194-235): a NEW_THREAD decision yields no parent and no thread; otherwise
the cleaned answer is resolved against the candidate list by id, then by
DNA code, then against the whole store by DNA code; an unresolvable answer
also yields no parent and no thread. -/
def resolveHeuristic (db existing : List ArticleRec) (decision : String) : ThreadLink :=
  if decision == "NEW_THREAD" then ⟨none, none⟩
  else
    match existing.find? (fun a => a.id == cleanDecision decision) with
    | some a => finishWithParent db a.id none
    | none =>
      match existing.find? (fun a => a.dnaCode == cleanDecision decision) with
      | some a => finishWithParent db a.id none
      | none =>
        match db.find? (fun a => a.dnaCode == cleanDecision decision) with
        | some a => finishWithParent db a.id a.threadId
        | none => ⟨none, none⟩

/-- Embeds Step 4 of `processArticle` (lines 176-235): explicit-key mode
uses the key as thread id and the most recently scraped thread member as
parent; otherwise the heuristic branch runs. -/
def processThreading (db : List ArticleRec) (threadKey : Option String)
    (existing : List ArticleRec) (decision : String) : ThreadLink :=
  match threadKey with
  | some key => ⟨(lastInThread db key).map (fun a => a.id), some key⟩
  | none => resolveHeuristic db existing decision

/-- The writer stores `threadId: article.threadId` verbatim
(news-scraping-service.ts line 334). -/
def savedThreadId (link : ThreadLink) : Option String :=
  link.threadId

/-- The row persisted for an article processed in explicit-key mode: the
resolver's linkage plus the scrape tick. -/
def explicitRec (db : List ArticleRec) (base : ArticleRec) (key : String) (tick : Nat) :
    ArticleRec :=
  { base with
    threadId := (processThreading db (some key) [] "").threadId,
    parentId := (processThreading db (some key) [] "").parentId,
    scrapedAt := tick }

/-- Processing then saving one explicit-key article appends its row to the
store. -/
def saveWithThread (db : List ArticleRec) (base : ArticleRec) (key : String) (tick : Nat) :
    List ArticleRec :=
  db ++ [explicitRec db base key tick]

/-- Claim C5: explicit-key thread chaining — three articles processed in
order with the same key all receive that key as thread id; the first has no
parent, the second's parent is the first's id, and the third's parent is
the second's id (the most recently scraped member of the thread). -/
theorem explicit_key_chaining (db : List ArticleRec) (key : String)
    (b1 b2 b3 : ArticleRec) (t : Nat)
    (hempty : db.filter (fun a => a.threadId == some key) = []) :
    (explicitRec db b1 key t).threadId = some key
    ∧ (explicitRec db b1 key t).parentId = none
    ∧ (explicitRec (saveWithThread db b1 key t) b2 key (t + 1)).threadId = some key
    ∧ (explicitRec (saveWithThread db b1 key t) b2 key (t + 1)).parentId = some b1.id
    ∧ (explicitRec (saveWithThread (saveWithThread db b1 key t) b2 key (t + 1)) b3 key
        (t + 2)).threadId = some key
    ∧ (explicitRec (saveWithThread (saveWithThread db b1 key t) b2 key (t + 1)) b3 key
        (t + 2)).parentId = some b2.id := by
  have hf1 : (saveWithThread db b1 key t).filter (fun a => a.threadId == some key)
      = [explicitRec db b1 key t] := by
    simp [saveWithThread, List.filter_append, hempty, explicitRec, processThreading]
  have hf2 : (saveWithThread (saveWithThread db b1 key t) b2 key (t + 1)).filter
      (fun a => a.threadId == some key)
      = [explicitRec db b1 key t, explicitRec (saveWithThread db b1 key t) b2 key (t + 1)] := by
    simp [saveWithThread, List.filter_append, hempty, explicitRec, processThreading]
  refine ⟨rfl, ?_, rfl, ?_, rfl, ?_⟩
  · show (lastInThread db key).map (fun a => a.id) = none
    unfold lastInThread
    rw [hempty]
    rfl
  · show (lastInThread (saveWithThread db b1 key t) key).map (fun a => a.id) = some b1.id
    unfold lastInThread
    rw [hf1]
    rfl
  · show (lastInThread (saveWithThread (saveWithThread db b1 key t) b2 key (t + 1)) key).map
        (fun a => a.id) = some b2.id
    unfold lastInThread
    rw [hf2]
    have ht : t < t + 1 := Nat.lt_succ_self t
    simp only [List.foldl_cons, List.foldl_nil]
    show ((scrapePick (some (explicitRec db b1 key t))
        (explicitRec (saveWithThread db b1 key t) b2 key (t + 1)))).map (fun a => a.id) = some b2.id
    simp only [scrapePick, explicitRec]
    rw [if_pos ht]
    rfl

/-- Claim C5 witness: concrete three-article chain from an empty store. -/
theorem explicit_key_chaining_witness :
    (explicitRec [] ⟨"a1", "u1", "INDIA", "POL", 2025, 1, none, none, "d1", 0⟩ "INDIA-policy" 0).parentId = none
    ∧ (explicitRec (saveWithThread [] ⟨"a1", "u1", "INDIA", "POL", 2025, 1, none, none, "d1", 0⟩ "INDIA-policy" 0)
        ⟨"a2", "u2", "INDIA", "POL", 2025, 2, none, none, "d2", 0⟩ "INDIA-policy" 1).parentId = some "a1"
    ∧ (explicitRec (saveWithThread (saveWithThread [] ⟨"a1", "u1", "INDIA", "POL", 2025, 1, none, none, "d1", 0⟩ "INDIA-policy" 0)
        ⟨"a2", "u2", "INDIA", "POL", 2025, 2, none, none, "d2", 0⟩ "INDIA-policy" 1)
        ⟨"a3", "u3", "INDIA", "POL", 2025, 3, none, none, "d3", 0⟩ "INDIA-policy" 2).parentId = some "a2" := by
  have h := explicit_key_chaining [] "INDIA-policy"
    ⟨"a1", "u1", "INDIA", "POL", 2025, 1, none, none, "d1", 0⟩
    ⟨"a2", "u2", "INDIA", "POL", 2025, 2, none, none, "d2", 0⟩
    ⟨"a3", "u3", "INDIA", "POL", 2025, 3, none, none, "d3", 0⟩ 0 (by decide)
  exact ⟨h.2.1, h.2.2.2.1, h.2.2.2.2.2⟩

/-- Claim C1 counterexample: in heuristic mode a NEW_THREAD decision (for
example the very first article, when no prior same-country/category
articles exist) leaves the resolver's thread reference null, and the writer
persists that null verbatim — no thread is auto-created. -/
theorem thread_nonnull_counterexample :
    savedThreadId (processThreading [] none [] "NEW_THREAD") = none := rfl

/-- Claim C1 (amended): an article processed with an explicit thread key
always carries that key as a non-null thread reference, but the heuristic
path auto-creates nothing — when the similarity decision is NEW_THREAD, or
cannot be resolved to a stored article by id or DNA code, the article
leaves the resolver with a null parent and a null thread reference and is
persisted unthreaded. -/
theorem thread_nonnull_amended (db existing : List ArticleRec) (key decision : String) :
    (processThreading db (some key) existing decision).threadId = some key
    ∧ savedThreadId (processThreading db none existing "NEW_THREAD") = none
    ∧ (existing.find? (fun a => a.id == cleanDecision decision) = none →
        existing.find? (fun a => a.dnaCode == cleanDecision decision) = none →
        db.find? (fun a => a.dnaCode == cleanDecision decision) = none →
        processThreading db none existing decision = ⟨none, none⟩) := by
  refine ⟨rfl, by simp [processThreading, resolveHeuristic, savedThreadId], ?_⟩
  intro h1 h2 h3
  by_cases hd : decision == "NEW_THREAD"
  · simp [processThreading, resolveHeuristic, hd]
  · simp [processThreading, resolveHeuristic, hd, h1, h2, h3]

/-- Claim C1 (amended) witness: concrete store with one unrelated article
and an unresolvable decision string. -/
theorem thread_nonnull_amended_witness :
    (processThreading [⟨"a1", "u1", "USA", "ECO", 2025, 1, none, none, "d1", 0⟩]
      (some "USA-economy") [] "x").threadId = some "USA-economy"
    ∧ processThreading [⟨"a1", "u1", "USA", "ECO", 2025, 1, none, none, "d1", 0⟩]
        none [] "garbage-answer" = ⟨none, none⟩ := by
  have h := thread_nonnull_amended [⟨"a1", "u1", "USA", "ECO", 2025, 1, none, none, "d1", 0⟩]
    [] "USA-economy" "garbage-answer"
  exact ⟨h.1, h.2.2 (by decide) (by decide) (by decide)⟩

/-- Outcome of one `prisma.article.create` attempt inside the writer's
retry loop: success, a message containing "Unique constraint", a message
containing "Connection", or any other failure. -/
inductive AttemptResult where
  | success (id : String)
  | uniqueViolation
  | connectionError
  | otherError
deriving Repr, DecidableEq

/-- Overall result of `saveProcessedArticle`: the saved row id, the
duplicate early-return (`return null`), or the rethrown final error. -/
inductive SaveOutcome where
  | saved (id : String)
  | duplicateSkip
  | fatal
deriving Repr, DecidableEq

/-- Trace of one save call: its outcome, how many create attempts ran, and
the backoff delays (milliseconds) slept between attempts. -/
structure SaveTrace where
  outcome : SaveOutcome
  attemptsMade : Nat
  delays : List Nat
deriving Repr, DecidableEq

/-- Embeds the retry loop of `saveProcessedArticle`
(news-scraping-service.ts lines 316-371): up to `maxRetries = 3` attempts; a
unique-constraint message returns null immediately; a connection message
sleeps `attempt * 1000` ms and retries while attempts remain; any other
failure retries without delay, and the final attempt's failure is
rethrown. -/
def saveAux (oracle : Nat → AttemptResult) : Nat → Nat → List Nat → SaveTrace
  | 0, attempt, acc => ⟨.fatal, attempt - 1, acc.reverse⟩
  | fuel + 1, attempt, acc =>
    match oracle attempt with
    | .success id => ⟨.saved id, attempt, acc.reverse⟩
    | .uniqueViolation => ⟨.duplicateSkip, attempt, acc.reverse⟩
    | .connectionError =>
      if attempt < 3 then saveAux oracle fuel (attempt + 1) (attempt * 1000 :: acc)
      else ⟨.fatal, attempt, acc.reverse⟩
    | .otherError =>
      if attempt = 3 then ⟨.fatal, attempt, acc.reverse⟩
      else saveAux oracle fuel (attempt + 1) acc

/-- `saveProcessedArticle` run from attempt 1 with the loop's three-attempt
budget. -/
def saveProcessedArticle (oracle : Nat → AttemptResult) : SaveTrace :=
  saveAux oracle 3 1 []

/-- Claim C6: persistence retry semantics — the write is attempted at most
3 times; a unique-constraint failure returns immediately as a duplicate
with no retry; connection failures are retried with linearly increasing
backoff (attempt × 1000 ms); exhausting all 3 attempts on non-duplicate
failures ends fatal for this one article; and the orchestrator tallies such
a fatal save as a single error and continues the batch. -/
theorem saveProcessedArticle_retry (oracle : Nat → AttemptResult) (id : String) :
    (saveProcessedArticle oracle).attemptsMade ≤ 3
    ∧ (oracle 1 = .uniqueViolation →
        saveProcessedArticle oracle = ⟨.duplicateSkip, 1, []⟩)
    ∧ (oracle 1 = .connectionError → oracle 2 = .uniqueViolation →
        saveProcessedArticle oracle = ⟨.duplicateSkip, 2, [1000]⟩)
    ∧ (oracle 1 = .connectionError → oracle 2 = .connectionError → oracle 3 = .success id →
        saveProcessedArticle oracle = ⟨.saved id, 3, [1000, 2000]⟩)
    ∧ ((∀ i, oracle i = .connectionError) →
        saveProcessedArticle oracle = ⟨.fatal, 3, [1000, 2000]⟩)
    ∧ ((∀ i, oracle i = .otherError) →
        saveProcessedArticle oracle = ⟨.fatal, 3, []⟩)
    ∧ (∀ s : Stats, tallyOutcome s CandOutcome.errored = { s with errors := s.errors + 1 }) := by
  refine ⟨?_, ?_, ?_, ?_, ?_, ?_, fun s => rfl⟩
  · cases h1 : oracle 1 <;> cases h2 : oracle 2 <;> cases h3 : oracle 3 <;>
      simp [saveProcessedArticle, saveAux, h1, h2, h3]
  · intro h1
    simp [saveProcessedArticle, saveAux, h1]
  · intro h1 h2
    simp [saveProcessedArticle, saveAux, h1, h2]
  · intro h1 h2 h3
    simp [saveProcessedArticle, saveAux, h1, h2, h3]
  · intro h
    simp [saveProcessedArticle, saveAux, h 1, h 2, h 3]
  · intro h
    simp [saveProcessedArticle, saveAux, h 1, h 2, h 3]

/-- Claim C6 witness: concrete oracles — immediate duplicate, two
connection failures then success, and three plain failures. -/
theorem saveProcessedArticle_retry_witness :
    saveProcessedArticle (fun i => AttemptResult.uniqueViolation) =
      ⟨SaveOutcome.duplicateSkip, 1, []⟩
    ∧ saveProcessedArticle
        (fun i => if i ≤ 2 then AttemptResult.connectionError else AttemptResult.success "a7") =
      ⟨SaveOutcome.saved "a7", 3, [1000, 2000]⟩
    ∧ saveProcessedArticle (fun i => AttemptResult.otherError) = ⟨SaveOutcome.fatal, 3, []⟩ := by
  refine ⟨(saveProcessedArticle_retry (fun i => AttemptResult.uniqueViolation) "a7").2.1 rfl,
    (saveProcessedArticle_retry _ "a7").2.2.2.1 rfl rfl rfl,
    (saveProcessedArticle_retry (fun i => AttemptResult.otherError) "a7").2.2.2.2.2.1
      (fun i => rfl)⟩

/-- `replace(/\s+/g, " ")`: collapse each whitespace run into a single
space; the flag records whether the previous character was whitespace. -/
def collapseWSAux : List Char → Bool → List Char
  | [], _ => []
  | c :: rest, prevWS =>
    if wsChar c then
      if prevWS then collapseWSAux rest true
      else ' ' :: collapseWSAux rest true
    else c :: collapseWSAux rest false

/-- The summary fallback's text normalization
`content.replace(/\s+/g, " ").trim()` (langchain-agents.ts line 322). -/
def normText (s : String) : List Char :=
  (((collapseWSAux s.data false).dropWhile wsChar).reverse.dropWhile wsChar).reverse

/-- Does the accumulated piece end in sentence punctuation (the lookbehind
`(?<=[.!?])` of the split regex)? The accumulator is kept reversed, so this
inspects its head. -/
def endsPunct : List Char → Bool
  | p :: _ => p == '.' || p == '!' || p == '?'
  | [] => false

/-- `text.split(/(?<=[.!?])\s+/)` on the collapsed text: split at a
whitespace character preceded by sentence punctuation, consuming the
separator. -/
def splitSentences : List Char → List Char → List (List Char)
  | [], acc => [acc.reverse]
  | c :: rest, acc =>
    if wsChar c && endsPunct acc then acc.reverse :: splitSentences rest []
    else splitSentences rest (c :: acc)

/-- `text.split(...).slice(0, 2).join(" ")` (line 324): the first two
sentences of the normalized content. -/
def sentencesOf (content : String) : List Char :=
  List.intercalate [' '] ((splitSentences (normText content) []).take 2)

/-- Embeds `NewsProcessor.normalizeOrFallbackSummary` (lines 318-327): keep
a trimmed model summary of at least 10 characters; otherwise fall back to
the first two sentences when they reach 30 characters, else the first 300
characters of the normalized content, else (empty content) the title. -/
def normalizeOrFallbackSummary (title content : String) (summaryCandidate : Option String) :
    String :=
  if 10 ≤ (strTrim (summaryCandidate.getD "")).length then strTrim (summaryCandidate.getD "")
  else if normText content = [] then title
  else if sentencesOf content ≠ [] ∧ 30 ≤ (sentencesOf content).length then
    String.mk (sentencesOf content)
  else String.mk ((normText content).take 300)

/-- The writer's missing-summary validation trigger
(news-scraping-service.ts line 312): `!article.summary` holds exactly for
the empty string. -/
def summaryMissing (summary : String) : Bool :=
  summary == ""

/-- A nonempty character list makes a nonempty string. -/
theorem stringMk_ne_empty (l : List Char) (h : l ≠ []) : String.mk l ≠ "" := by
  intro he
  exact h ((congrArg String.data he).trans rfl)

/-- Claim C9: for every article with a non-empty title the produced summary
is non-empty — a trimmed model summary of at least 10 characters is kept
verbatim, otherwise the fallback chain (two sentences of at least 30
characters, else the first 300 characters of the content, else the title)
never yields the empty string — so the writer's missing-summary validation
branch cannot fire on pipeline-produced articles. -/
theorem summary_nonempty (title content : String) (cand : Option String) (h : title ≠ "") :
    normalizeOrFallbackSummary title content cand ≠ ""
    ∧ summaryMissing (normalizeOrFallbackSummary title content cand) = false
    ∧ (10 ≤ (strTrim (cand.getD "")).length →
        normalizeOrFallbackSummary title content cand = strTrim (cand.getD ""))
    ∧ (¬ 10 ≤ (strTrim (cand.getD "")).length → normText content = [] →
        normalizeOrFallbackSummary title content cand = title)
    ∧ (¬ 10 ≤ (strTrim (cand.getD "")).length → normText content ≠ [] →
        30 ≤ (sentencesOf content).length → sentencesOf content ≠ [] →
        normalizeOrFallbackSummary title content cand = String.mk (sentencesOf content))
    ∧ (¬ 10 ≤ (strTrim (cand.getD "")).length → normText content ≠ [] →
        ¬ (sentencesOf content ≠ [] ∧ 30 ≤ (sentencesOf content).length) →
        normalizeOrFallbackSummary title content cand =
          String.mk ((normText content).take 300)) := by
  have main : normalizeOrFallbackSummary title content cand ≠ "" := by
    unfold normalizeOrFallbackSummary
    by_cases h10 : 10 ≤ (strTrim (cand.getD "")).length
    · rw [if_pos h10]
      intro he
      rw [he] at h10
      exact absurd h10 (by decide)
    · rw [if_neg h10]
      by_cases htext : normText content = []
      · rw [if_pos htext]
        exact h
      · rw [if_neg htext]
        by_cases hsent : sentencesOf content ≠ [] ∧ 30 ≤ (sentencesOf content).length
        · rw [if_pos hsent]
          exact stringMk_ne_empty _ hsent.1
        · rw [if_neg hsent]
          refine stringMk_ne_empty _ ?_
          simp [List.take_eq_nil_iff, htext]
  refine ⟨main, ?_, ?_, ?_, ?_, ?_⟩
  · simp only [summaryMissing, beq_eq_false_iff_ne, ne_eq]
    exact main
  · intro h10
    simp only [normalizeOrFallbackSummary, if_pos h10]
  · intro h10 htext
    simp only [normalizeOrFallbackSummary, if_neg h10, if_pos htext]
  · intro h10 htext h30 hne
    simp only [normalizeOrFallbackSummary, if_neg h10, if_neg htext, if_pos (And.intro hne h30)]
  · intro h10 htext hsent
    simp only [normalizeOrFallbackSummary, if_neg h10, if_neg htext, if_neg hsent]

/-- Claim C9 witness: concrete evaluations — a kept model summary, the
two-sentence fallback, and the title fallback for empty content. -/
theorem summary_nonempty_witness :
    normalizeOrFallbackSummary "Title" "Body text." (some " A good long summary. ") =
      strTrim ((some " A good long summary. " : Option String).getD "")
    ∧ normalizeOrFallbackSummary "Title" "  " none = "Title"
    ∧ normalizeOrFallbackSummary "Title" "Rates rose sharply this week. Markets reacted badly. More text here." none =
        String.mk (sentencesOf "Rates rose sharply this week. Markets reacted badly. More text here.") := by
  refine ⟨(summary_nonempty "Title" "Body text." (some " A good long summary. ")
      (by decide)).2.2.1 (by decide),
    (summary_nonempty "Title" "  " none (by decide)).2.2.2.1 (by decide) (by decide),
    (summary_nonempty "Title" "Rates rose sharply this week. Markets reacted badly. More text here." none
      (by decide)).2.2.2.2.1 (by decide) (by decide) (by decide) (by decide)⟩

end NewsCat
